import Mathlib

/-!
Verification of the SWR revalidation/cache engine of this repository.

The development shallowly embeds the core modules:
  * `stableHash`   — src/lib/swr/_internal/utils/hash.ts
  * `serialize`    — src/unnamed/part_011 (serialize.ts)
  * the revalidate state machine — src/lib/swr/index/use-swr.ts (`revalidate`)
  * the mutation engine — src/unnamed/part_007 (`internalMutate`)
  * `preload`      — src/lib/swr/_internal/utils/preload.ts

JavaScript values are modelled as finite trees (`JSVal`).  The mutually
inductive list types keep every function structurally recursive, so all
definitions evaluate by kernel reduction.  Reference identity, the WeakMap
memo of `stableHash` (a pure cache for acyclic values) and cyclic values are
outside the model; string escaping in `JSON.stringify` is not modelled
(the values used by the claims contain no escapes).
-/

namespace Swr

mutual

inductive JSVal where
  | str (s : String)
  | num (n : Int)
  | bool (b : Bool)
  | null
  | undef
  | date (iso : String)
  | sym (desc : String)
  | arr (xs : JSList)
  | obj (fs : JSFields)

inductive JSList where
  | nil
  | cons (v : JSVal) (tl : JSList)

inductive JSFields where
  | nil
  | cons (k : String) (v : JSVal) (tl : JSFields)

end

/-- Truthiness of a JavaScript value (`!!v`).  `NaN` is not modelled. -/
def jsTruthy : JSVal → Bool
  | .str s => !(s == "")
  | .num n => !(n == 0)
  | .bool b => b
  | .null => false
  | .undef => false
  | _ => true

/-- The `isUndefined` helper of shared.ts (`v === undefined`). -/
def isUndef : JSVal → Bool
  | .undef => true
  | _ => false

/-- Lexicographic comparison of character lists by code unit, the order
used by JavaScript's default `Array.prototype.sort` comparator on strings. -/
def codeLt : List Char → List Char → Bool
  | _, [] => false
  | [], _ :: _ => true
  | a :: as, b :: bs =>
    if a.toNat < b.toNat then true
    else if b.toNat < a.toNat then false
    else codeLt as bs

/-- String comparison by code units (`a < b` in JavaScript). -/
def strLt (a b : String) : Bool := codeLt a.data b.data

/-- Descending order on `(key, hash)` pairs: the key of the first is not
smaller than the key of the second.  hash.ts sorts `Object.keys` ascending
and then pops from the end, so fields are emitted largest key first. -/
def fieldGe (a b : String × String) : Prop := strLt a.1 b.1 = false

instance : DecidableRel fieldGe :=
  fun a b => inferInstanceAs (Decidable (strLt a.1 b.1 = false))

/-- Sort `(key, hash)` pairs by key, descending. -/
def sortFieldsDesc (l : List (String × String)) : List (String × String) :=
  List.insertionSort fieldGe l

/-- Emit `key:hash,` for every pair, in list order (hash.ts object loop). -/
def renderFields : List (String × String) → String
  | [] => ""
  | (k, h) :: rest => k ++ ":" ++ h ++ "," ++ renderFields rest

mutual

/-- Embedding of `stableHash` (hash.ts).  Primitives hash via their string
form; strings are quoted (`JSON.stringify`) so `"1"` and `1` differ; dates
hash via `toJSON`; symbols via `toString`; arrays are `"@"` followed by the
comma-terminated element hashes; plain objects are `"#"` followed by
`key:hash,` for every defined-value key, keys in descending order (hash.ts
sorts the keys ascending and pops from the end).  Hashing a field's value is
pure here, so hashing the defined fields first and then sorting the
`(key, hash)` pairs by key yields the byte-identical string; keys of a
JavaScript object are distinct. -/
def stableHash : JSVal → String
  | .str s => "\"" ++ s ++ "\""
  | .num n => toString n
  | .bool b => if b then "true" else "false"
  | .null => "null"
  | .undef => "undefined"
  | .date iso => iso
  | .sym desc => desc
  | .arr xs => "@" ++ hashElems xs
  | .obj fs => "#" ++ renderFields (sortFieldsDesc (hashFields fs))

/-- Array branch of hash.ts: each element's hash followed by a comma. -/
def hashElems : JSList → String
  | .nil => ""
  | .cons v tl => stableHash v ++ "," ++ hashElems tl

/-- Hash the defined-value fields of a plain object, keeping the keys
(fields whose value is `undefined` are skipped, as in hash.ts). -/
def hashFields : JSFields → List (String × String)
  | .nil => []
  | .cons k v tl =>
      if isUndef v then hashFields tl else (k, stableHash v) :: hashFields tl

end

/-- Build a `JSList` from a Lean list. -/
def jsListOfList : List JSVal → JSList
  | [] => .nil
  | v :: tl => .cons v (jsListOfList tl)

/-- Build `JSFields` from a Lean association list (insertion order). -/
def jsFieldsOfList : List (String × JSVal) → JSFields
  | [] => .nil
  | (k, v) :: tl => .cons k v (jsFieldsOfList tl)

/-- Array value from a Lean list. -/
def arrOfList (xs : List JSVal) : JSVal := .arr (jsListOfList xs)

/-- Plain-object value from a Lean association list. -/
def objOfList (fs : List (String × JSVal)) : JSVal := .obj (jsFieldsOfList fs)

/-- The key argument of `serialize`: either a plain value, or a thunk that
either returns a value or throws (`key()` raising on unready dependencies). -/
inductive KeyInput where
  | direct (v : JSVal)
  | thunk (r : Except Unit JSVal)

/-- Embedding of `serialize` (src/unnamed/part_011).  A callable key is
invoked with no arguments; a throw yields the empty string key.  The
resolved value is kept as `args` (the fetcher argument).  The serialized
key mirrors the source ternary
`typeof key == 'string' ? key : (Array.isArray(key) ? key.length : key) ? stableHash(key) : ''`. -/
def serialize (input : KeyInput) : String × JSVal :=
  let key : JSVal :=
    match input with
    | .direct v => v
    | .thunk (.ok v) => v
    | .thunk (.error _) => .str ""
  let args := key
  let skey : String :=
    match key with
    | .str s => s
    | .arr .nil => ""
    | .arr xs => stableHash (.arr xs)
    | v => if jsTruthy v then stableHash v else ""
  (skey, args)

/-- Cache entry state (per serialized key).  Every field of a JavaScript
state object may be absent/undefined, modelled with `Option` (`none` is
`undefined`).  `_c` is the staged pre-mutation committed value of
internalMutate. -/
structure EntryState (Data Err : Type) where
  data : Option Data := none
  error : Option Err := none
  isValidating : Option Bool := none
  isLoading : Option Bool := none
  _c : Option Data := none
deriving DecidableEq

/-- Partial state passed to `setCache`.  The outer `Option` on `data`,
`error` and `_c` records whether the field is present in the partial object
at all: a field present with value `undefined` (`some none`) overwrites,
an absent field (`none`) leaves the previous value, matching the object
spread of mergeObjects. -/
structure StateUpdate (Data Err : Type) where
  data : Option (Option Data) := none
  error : Option (Option Err) := none
  isValidating : Option Bool := none
  isLoading : Option Bool := none
  _c : Option (Option Data) := none

/-- Modelled from the spec: shared.ts (`mergeObjects`) is not in the source
tree.  Spec section 4.3: `set(key, partialState)` merges over the previous
state, preserving unspecified fields; section 4.4 step 3 ("store the new
value and clear any previous error" through `finalState.error = UNDEFINED`)
fixes that a field explicitly present with value `undefined` overwrites,
as the object spread `\x7b...prev, ...info\x7d` does. -/
def mergeState (prev : EntryState Data Err) (p : StateUpdate Data Err) :
    EntryState Data Err where
  data := p.data.getD prev.data
  error := p.error.getD prev.error
  isValidating := match p.isValidating with | some b => some b | none => prev.isValidating
  isLoading := match p.isLoading with | some b => some b | none => prev.isLoading
  _c := p._c.getD prev._c

/-- Pointwise update of a keyed table. -/
def upd (t : String → Option α) (k : String) (v : Option α) : String → Option α :=
  fun k' => if k' = k then v else t k'

/-- Global per-cache coordination state plus the cache store, restricted to
what the engine reads and writes: the key→state cache map, the in-flight
request table `FETCH` (promise handle, dispatch timestamp), the mutation
ledger `MUTATION` ([start, end] timestamps, end 0 = still open), and the
preload table `PRELOAD` (promise handle).  Promises are identified by
handles (`Nat`); `fetchCount` counts fetcher invocations; `now` backs the
timestamp source. -/
structure GS (Data Err : Type) where
  cacheTable : String → Option (EntryState Data Err)
  fetchTable : String → Option (Nat × Nat)
  mutationTable : String → Option (Nat × Nat)
  preloadTable : String → Option Nat
  now : Nat := 0
  nextPromise : Nat := 0
  fetchCount : Nat := 0

/-- The empty coordination state. -/
def emptyGS : GS Data Err :=
  { cacheTable := fun _ => none, fetchTable := fun _ => none,
    mutationTable := fun _ => none, preloadTable := fun _ => none }

/-- Modelled from the spec: timestamp.ts is not in the source tree.  The
in-flight table and mutation ledger store "timestamps" from a global
monotonically increasing counter; the first timestamp is 1, so the value 0
is reserved for a still-open mutation window. -/
def getTimestamp (g : GS Data Err) : Nat × GS Data Err :=
  (g.now + 1, { g with now := g.now + 1 })

/-- Getter of createCacheHelper: the cached state or `EMPTY_CACHE`. -/
def getCache (g : GS Data Err) (k : String) : EntryState Data Err :=
  (g.cacheTable k).getD {}

/-- Setter of createCacheHelper: merge the partial update over the previous
state and store it (the INITIAL_CACHE first-write snapshot for server
rendering is not modelled — no claim concerns it). -/
def setCache (g : GS Data Err) (k : String) (p : StateUpdate Data Err) :
    GS Data Err :=
  { g with cacheTable := upd g.cacheTable k (some (mergeState (getCache g k) p)) }

/-- Callback events observable from one engine operation, in order. -/
inductive Ev (Data Err : Type)
  | success (d : Data)
  | failure (e : Err)
  | discarded
  | revalidateEvent
deriving DecidableEq

/-- The per-call context `revalidate` keeps across its `await`:
`shouldStart` is `shouldStartNewRequest`, `promiseId` the awaited promise
(`newData` before the await), `startAt` the remembered dispatch timestamp. -/
structure RevCtx where
  shouldStart : Bool
  promiseId : Nat
  startAt : Nat
deriving DecidableEq

/-- How the awaited fetch promise settles. -/
inductive FetchOutcome (Data Err : Type)
  | ok (d : Data)
  | err (e : Err)

/-- Synchronous part of `revalidate` (use-swr.ts) up to `await newData`.
Preconditions (`!key || !currentFetcher || unmountedRef.current ||
getConfig().isPaused()`) return `false` immediately (`none`).  Otherwise
`shouldStartNewRequest = !FETCH[key] || !opts.dedupe`; a new dispatch sets
`isValidating: true` in the cache, invokes the fetcher and registers
`FETCH[key] = [promise, getTimestamp()]`; then this call reads
`[newData, startAt] = FETCH[key]` (the same record for dispatcher and
joiner) and suspends.  The `onLoadingSlow` timeout is not modelled. -/
def revalidateDispatch (k : String) (dedupe hasFetcher unmounted paused : Bool)
    (g : GS Data Err) : Option RevCtx × GS Data Err :=
  if k == "" || !hasFetcher || unmounted || paused then (none, g)
  else
    let shouldStart := (g.fetchTable k).isNone || !dedupe
    let g1 :=
      if shouldStart then
        let ga := setCache g k { isValidating := some true }
        let ts := ga.now + 1
        { ga with
          fetchTable := upd ga.fetchTable k (some (ga.nextPromise, ts)),
          now := ts, nextPromise := ga.nextPromise + 1,
          fetchCount := ga.fetchCount + 1 }
      else g
    match g1.fetchTable k with
    | some r => (some ⟨shouldStart, r.1, r.2⟩, g1)
    | none => (none, g1)

/-- The `cleanupState` closure: delete `FETCH[key]` only if the record still
carries this call's dispatch timestamp. -/
def cleanupState (k : String) (startAt : Nat) (g : GS Data Err) : GS Data Err :=
  match g.fetchTable k with
  | some r => if r.2 == startAt then { g with fetchTable := upd g.fetchTable k none } else g
  | none => g

/-- Result of the resolution part of `revalidate`: its return value, the
callbacks fired, whether `cleanupState` was scheduled to run after the
deduping interval, and the resulting state. -/
structure SettleResult (Data Err : Type) where
  ret : Bool
  events : List (Ev Data Err)
  scheduledCleanup : Bool
  g : GS Data Err

/-- Resolution part of `revalidate` (use-swr.ts) from `await newData` on,
evaluated against the state `g` current when the promise settles.

Fulfilled: the dispatcher schedules `cleanupState` after the deduping
interval; the staleness check (`!FETCH[key] || FETCH[key][1] !== startAt`)
discards without any cache write, firing `onDiscarded` for the original
dispatcher when `callbackSafeguard()` holds; then `finalState.error` is set
to `undefined`, and the mutation-overlap check (`startAt <= mutation start`,
`startAt <= mutation end`, or end 0) discards after writing the final state;
otherwise the result is committed (keeping the old `data` reference when
`compare` says equal) and `onSuccess` fires for the dispatcher.

Rejected: the `await` throws, so none of those checks run; `cleanupState()`
runs immediately, the error is stored unless paused (`onError` fires for
the dispatcher; the retry policy is not modelled), and the call still
finalizes and returns `true`. -/
def revalidateSettle (k : String) (ctx : RevCtx) (outcome : FetchOutcome Data Err)
    (safeguard pausedAtCatch : Bool) (compare : Option Data → Data → Bool)
    (g : GS Data Err) : SettleResult Data Err :=
  match outcome with
  | .ok newData =>
    let discardEvents : List (Ev Data Err) :=
      if ctx.shouldStart && safeguard then [.discarded] else []
    let stale : SettleResult Data Err :=
      { ret := false, events := discardEvents,
        scheduledCleanup := ctx.shouldStart, g := g }
    match g.fetchTable k with
    | none => stale
    | some r =>
      if r.2 == ctx.startAt then
        match g.mutationTable k with
        | some m =>
          if ctx.startAt ≤ m.1 || ctx.startAt ≤ m.2 || m.2 == 0 then
            { ret := false, events := discardEvents,
              scheduledCleanup := ctx.shouldStart,
              g := setCache g k
                { isValidating := some false, isLoading := some false,
                  error := some none } }
          else
            let cacheData := (getCache g k).data
            { ret := true,
              events := if ctx.shouldStart && safeguard then [.success newData] else [],
              scheduledCleanup := ctx.shouldStart,
              g := setCache g k
                { isValidating := some false, isLoading := some false,
                  error := some none,
                  data := some (if compare cacheData newData then cacheData else some newData) } }
        | none =>
          let cacheData := (getCache g k).data
          { ret := true,
            events := if ctx.shouldStart && safeguard then [.success newData] else [],
            scheduledCleanup := ctx.shouldStart,
            g := setCache g k
              { isValidating := some false, isLoading := some false,
                error := some none,
                data := some (if compare cacheData newData then cacheData else some newData) } }
      else stale
  | .err e =>
    let g1 := cleanupState k ctx.startAt g
    if pausedAtCatch then
      { ret := true, events := [], scheduledCleanup := false,
        g := setCache g1 k { isValidating := some false, isLoading := some false } }
    else
      { ret := true,
        events := if ctx.shouldStart && safeguard then [.failure e] else [],
        scheduledCleanup := false,
        g := setCache g1 k
          { isValidating := some false, isLoading := some false,
            error := some (some e) } }

/-- The `rollbackOnError` option: absent, a boolean, or a predicate over
the error (src/unnamed/part_007). -/
inductive RollbackOnError (Err : Type)
  | unset
  | flag (b : Bool)
  | pred (f : Err → Bool)

/-- Derived rollback decision, mirroring
`typeof o === "function" ? o(error) : o !== false`. -/
def rollbackDecision (o : RollbackOnError Err) (e : Err) : Bool :=
  match o with
  | .pred f => f e
  | .flag b => b
  | .unset => true

/-- The `populateCache` option: a boolean, or a transform of
`(result, currentData)` (src/unnamed/part_007). -/
inductive PopulateCache (Data : Type)
  | flag (b : Bool)
  | transform (f : Option Data → Option Data → Option Data)

/-- The `optimisticData` option: absent, a literal, or a function of
`(committedData, displayedData)`. -/
inductive OptimisticData (Data : Type)
  | unset
  | value (v : Data)
  | fn (f : Option Data → Option Data → Option Data)

/-- Merged mutator options, defaults as in internalMutate
(`populateCache: true, throwOnError: true`; `revalidate` option undefined
means revalidate; its function form is not exercised by any claim). -/
structure MutOptions (Data Err : Type) where
  populateCache : PopulateCache Data := .flag true
  rollbackOnError : RollbackOnError Err := .unset
  optimisticData : OptimisticData Data := .unset
  throwOnError : Bool := true
  revalidate : Option Bool := none

/-- A replacement value as seen after the synchronous steps: a plain
(non-thenable) value, or a promise whose outcome arrives at the `await`. -/
inductive MutVal (Data : Type)
  | plain (v : Option Data)
  | pending

/-- The `_data` argument of internalMutate: absent (`args.length < 3`,
"just revalidate"), a direct value or promise, or a mutator function of the
committed data that may throw synchronously or produce a value/promise. -/
inductive MutData (Data Err : Type)
  | absent
  | now (v : MutVal Data)
  | fn (f : Option Data → Except Err (MutVal Data))

/-- What a mutation call delivers to its caller. -/
inductive MutResult (Data Err : Type)
  | returned (v : Option Data)
  | thrown (e : Err)
deriving DecidableEq

/-- Context internalMutate keeps across the `await` of a thenable
replacement value. -/
structure MutCtx (Data : Type) where
  key : String
  beforeMutationTs : Nat
  committedData : Option Data
  hasOptimisticData : Bool

/-- A mutation either finishes synchronously or suspends at the `await`. -/
inductive MutStep (Data Err : Type)
  | finished (r : MutResult Data Err) (events : List (Ev Data Err)) (g : GS Data Err)
  | suspended (ctx : MutCtx Data) (g : GS Data Err)

/-- The state a mutation step leaves behind. -/
def MutStep.stateOf : MutStep Data Err → GS Data Err
  | .finished _ _ g => g
  | .suspended _ g => g

/-- The `startRevalidate` closure of internalMutate: when the `revalidate`
option is not `false`, delete the in-flight and preload records so new
requests are not deduped, and fire the key's revalidator (`MUTATE_EVENT`,
recorded as an event; the revalidator registry itself is not modelled). -/
def startRevalidate (k : String) (opts : MutOptions Data Err) (g : GS Data Err) :
    GS Data Err × List (Ev Data Err) :=
  if opts.revalidate ≠ some false then
    ({ g with fetchTable := upd g.fetchTable k none,
              preloadTable := upd g.preloadTable k none },
     [.revalidateEvent])
  else (g, [])

/-- Common tail of internalMutate after the replacement value is known:
populate the cache when enabled and no error occurred (clearing the error
and the staged `_c`), close the mutation ledger entry with an end
timestamp, trigger `startRevalidate`, and throw or return.  The ledger
entry always exists here (opened by this call, and the race check already
passed on the awaited path); the asynchronous `_c` clearing after the
revalidation settles is not modelled. -/
def mutateTail (k : String) (opts : MutOptions Data Err)
    (populateCacheEff : PopulateCache Data) (committedData : Option Data)
    (data : Option Data) (err? : Option Err) (g : GS Data Err) :
    MutResult Data Err × List (Ev Data Err) × GS Data Err :=
  let g1 :=
    match populateCacheEff with
    | .flag false => g
    | .flag true =>
      if err?.isNone then
        setCache g k { data := some data, error := some none, _c := some none }
      else g
    | .transform f =>
      if err?.isNone then
        setCache g k { data := some (f data committedData), error := some none, _c := some none }
      else g
  let (ts, g2) := getTimestamp g1
  let g3 :=
    match g2.mutationTable k with
    | some m => { g2 with mutationTable := upd g2.mutationTable k (some (m.1, ts)) }
    | none => g2
  let (g4, evs) := startRevalidate k opts g3
  match err? with
  | some e => (if opts.throwOnError then .thrown e else .returned none, evs, g4)
  | none => (.returned data, evs, g4)

/-- Synchronous part of `internalMutate`'s `mutateByKey` (src/unnamed/
part_007) for a single key, up to the possible `await`: serialize the key
and return `undefined` for a falsy serialized key; with no replacement data
just revalidate; otherwise open the mutation ledger `[ts, 0]`, compute the
committed data from the staged `_c` or the displayed data, apply optimistic
data (stashing the committed value in `_c`), run a mutator function
(capturing a synchronous throw without touching the cache), and either
finish synchronously for a plain value or suspend at the `await` for a
thenable. -/
def mutateByKey (input : KeyInput) (opts : MutOptions Data Err)
    (arg : MutData Data Err) (g : GS Data Err) : MutStep Data Err :=
  let k := (serialize input).1
  if k == "" then .finished (.returned none) [] g
  else
    match arg with
    | .absent =>
      let (g1, evs) := startRevalidate k opts g
      .finished (.returned (getCache g1 k).data) evs g1
    | arg =>
      let (ts, g1) := getTimestamp g
      let g2 := { g1 with mutationTable := upd g1.mutationTable k (some (ts, 0)) }
      let st := getCache g2 k
      let displayedData := st.data
      let currentData := st._c
      let committedData :=
        match currentData with
        | some c => some c
        | none => displayedData
      let hasOpt :=
        match opts.optimisticData with
        | .unset => false
        | _ => true
      let g3 :=
        match opts.optimisticData with
        | .unset => g2
        | .value v =>
          setCache g2 k { data := some (some v), _c := some committedData }
        | .fn f =>
          setCache g2 k { data := some (f committedData displayedData), _c := some committedData }
      let ctx : MutCtx Data := ⟨k, ts, committedData, hasOpt⟩
      let resolved : Except Err (MutVal Data) :=
        match arg with
        | .now v => .ok v
        | .fn f => f committedData
        | .absent => .ok (.plain none)
      match resolved with
      | .ok (.plain v) =>
        let (r, evs, g4) := mutateTail k opts opts.populateCache committedData v none g3
        .finished r evs g4
      | .ok .pending => .suspended ctx g3
      | .error e =>
        let (r, evs, g4) := mutateTail k opts opts.populateCache committedData none (some e) g3
        .finished r evs g4

/-- Resolution part of `internalMutate` after the `await`, evaluated
against the state current when the promise settles.  A rejection is caught
(`data` becomes `undefined`, the error is kept).  The race check
(`beforeMutationTs !== MUTATION[key][0]`) abandons every cache write and
returns or rethrows this call's own result; otherwise a failed mutation
with optimistic data applied rolls back to the committed value when the
rollback policy approves (forcing `populateCache = true`), and the common
tail runs. -/
def mutateSettle (opts : MutOptions Data Err) (ctx : MutCtx Data)
    (outcome : Except Err (Option Data)) (g : GS Data Err) :
    MutResult Data Err × List (Ev Data Err) × GS Data Err :=
  let k := ctx.key
  let data : Option Data := match outcome with | .ok v => v | .error _ => none
  let err? : Option Err := match outcome with | .ok _ => none | .error e => some e
  if (g.mutationTable k).map Prod.fst ≠ some ctx.beforeMutationTs then
    (match err? with
     | some e => .thrown e
     | none => .returned data, [], g)
  else
    match err? with
    | some e =>
      if ctx.hasOptimisticData && rollbackDecision opts.rollbackOnError e then
        mutateTail k opts (.flag true) ctx.committedData data err?
          (setCache g k { data := some ctx.committedData, _c := some none })
      else
        mutateTail k opts opts.populateCache ctx.committedData data err? g
    | none =>
      mutateTail k opts opts.populateCache ctx.committedData data err? g

/-- Embedding of `preload` (src/lib/swr/_internal/utils/preload.ts):
serialize the key; return an existing pending promise unchanged, otherwise
invoke the fetcher, store the resulting promise and return it. -/
def preload (input : KeyInput) (g : GS Data Err) : Nat × GS Data Err :=
  let k := (serialize input).1
  match g.preloadTable k with
  | some req => (req, g)
  | none =>
    let req := g.nextPromise
    (req, { g with preloadTable := upd g.preloadTable k (some req),
                   nextPromise := req + 1, fetchCount := g.fetchCount + 1 })

/-- A state with one dispatched revalidation for `"k"` (promise 0, ts 1). -/
def dispatchOnceG : GS Nat Nat :=
  (revalidateDispatch "k" false true false false emptyGS).2

/-- `dispatchOnceG` after a second dispatch for `"k"` (promise 1, ts 2)
that overwrote the in-flight record. -/
def dispatchTwiceG : GS Nat Nat :=
  (revalidateDispatch "k" false true false false dispatchOnceG).2

/-- A state where a fetch for `"k"` was dispatched at ts 5, a mutation
opened at ts 5 is still in flight, and the cache entry carries error 9. -/
def mutationOverlapG : GS Nat Nat :=
  { cacheTable := upd (fun _ => none) "k" (some { error := some 9 }),
    fetchTable := upd (fun _ => none) "k" (some (0, 5)),
    mutationTable := upd (fun _ => none) "k" (some (5, 0)),
    preloadTable := fun _ => none,
    now := 5, nextPromise := 1, fetchCount := 1 }

/-! Helper lemmas: `codeLt` is a strict total order, so sorting the
`(key, hash)` pairs of two permuted field lists with distinct keys yields
the same list. -/

theorem codeLt_nil_right : ∀ x, codeLt x [] = false
  | [] => rfl
  | _ :: _ => rfl

theorem codeLt_irrefl : ∀ x, codeLt x x = false
  | [] => rfl
  | a :: as => by simp [codeLt, codeLt_irrefl as]

theorem codeLt_trans : ∀ {x y z : List Char},
    codeLt x y = true → codeLt y z = true → codeLt x z = true
  | [], y, z, _, hyz => by
    cases z with
    | nil => cases y with
      | nil => simpa using hyz
      | cons b bs => simp [codeLt_nil_right] at hyz
    | cons c cs => rfl
  | _ :: _, [], _, hxy, _ => by simp [codeLt_nil_right] at hxy
  | _ :: _, _ :: _, [], _, hyz => by simp [codeLt_nil_right] at hyz
  | a :: as, b :: bs, c :: cs, hxy, hyz => by
    simp only [codeLt] at hxy hyz ⊢
    rcases Nat.lt_trichotomy a.toNat b.toNat with hab | hab | hab
    · rcases Nat.lt_trichotomy b.toNat c.toNat with hbc | hbc | hbc
      · have : a.toNat < c.toNat := hab.trans hbc
        simp [this]
      · have : a.toNat < c.toNat := hbc ▸ hab
        simp [this]
      · simp [Nat.lt_asymm hbc, if_neg (Nat.lt_irrefl _)] at hyz
        omega
    · rcases Nat.lt_trichotomy b.toNat c.toNat with hbc | hbc | hbc
      · have : a.toNat < c.toNat := hab ▸ hbc
        simp [this]
      · have hac : a.toNat = c.toNat := hab.trans hbc
        have has : codeLt as bs = true := by
          simp [Nat.lt_irrefl, hab] at hxy; exact hxy
        have hbs : codeLt bs cs = true := by
          simp [Nat.lt_irrefl, hbc] at hyz; exact hyz
        simp [hac, Nat.lt_irrefl]
        exact codeLt_trans has hbs
      · simp [Nat.lt_asymm hbc, if_neg (Nat.lt_irrefl _)] at hyz
        omega
    · simp [Nat.lt_asymm hab, if_neg (Nat.lt_irrefl _)] at hxy
      omega

theorem codeLt_asymm {x y : List Char} (h : codeLt x y = true) :
    codeLt y x = false := by
  by_contra hyx
  have hyx' : codeLt y x = true := by
    cases hc : codeLt y x with
    | false => exact absurd hc hyx
    | true => rfl
  have := codeLt_trans h hyx'
  simp [codeLt_irrefl] at this

theorem codeLt_connex : ∀ {x y : List Char},
    codeLt x y = false → codeLt y x = false → x = y
  | [], [], _, _ => rfl
  | [], _ :: _, hxy, _ => by simp [codeLt] at hxy
  | _ :: _, [], _, hyx => by simp [codeLt] at hyx
  | a :: as, b :: bs, hxy, hyx => by
    simp only [codeLt] at hxy hyx
    rcases Nat.lt_trichotomy a.toNat b.toNat with hab | hab | hab
    · simp [hab] at hxy
    · have hchar : a = b := Char.eq_of_val_eq (UInt32.ext hab)
      have h1 : codeLt as bs = false := by
        simpa [hab, Nat.lt_irrefl] using hxy
      have h2 : codeLt bs as = false := by
        simpa [hab, Nat.lt_irrefl] using hyx
      rw [hchar, codeLt_connex h1 h2]
    · simp [hab] at hyx

theorem strLt_trans {a b c : String} (h1 : strLt a b = true)
    (h2 : strLt b c = true) : strLt a c = true :=
  codeLt_trans h1 h2

theorem strLt_asymm {a b : String} (h : strLt a b = true) : strLt b a = false :=
  codeLt_asymm h

theorem strLt_connex {a b : String} (h1 : strLt a b = false)
    (h2 : strLt b a = false) : a = b := by
  cases a with
  | mk ad => cases b with
    | mk bd => exact congrArg String.mk (codeLt_connex h1 h2)

instance : IsTotal (String × String) fieldGe where
  total a b := by
    unfold fieldGe
    cases h : strLt a.1 b.1 with
    | false => exact Or.inl rfl
    | true => exact Or.inr (strLt_asymm h)

instance : IsTrans (String × String) fieldGe where
  trans a b c h1 h2 := by
    unfold fieldGe at h1 h2 ⊢
    cases hac : strLt a.1 c.1 with
    | false => rfl
    | true =>
      rcases hcb : strLt c.1 b.1 with _ | _
      · rcases hbc : strLt b.1 c.1 with _ | _
        · exact absurd (strLt_connex hbc hcb ▸ hac) (by simp [h1])
        · exact absurd hbc (by simp [h2])
      · have := strLt_trans hac hcb
        exact absurd this (by simp [h1])

/-- Strict descending order on `(key, hash)` pairs. -/
def fieldGt (a b : String × String) : Prop := strLt b.1 a.1 = true

instance : IsAntisymm (String × String) fieldGt where
  antisymm a b h1 h2 := absurd h1 (by simp [fieldGt, strLt_asymm h2])

theorem sorted_fieldGt_of_sorted_fieldGe :
    ∀ {l : List (String × String)}, l.Sorted fieldGe →
      (l.map Prod.fst).Nodup → l.Sorted fieldGt := by
  intro l hs hn
  have hn' : l.Pairwise (fun p q => p.1 ≠ q.1) := by
    simpa [List.Nodup, List.pairwise_map] using hn
  refine (hs.and hn').imp ?_
  rintro a b ⟨hge, hne⟩
  unfold fieldGe at hge
  unfold fieldGt
  cases hba : strLt b.1 a.1 with
  | true => rfl
  | false => exact absurd (strLt_connex hba hge) (fun h => hne h.symm)

theorem hashFields_ofList (l : List (String × JSVal)) :
    hashFields (jsFieldsOfList l) =
      (l.filter (fun p => !isUndef p.2)).map (fun p => (p.1, stableHash p.2)) := by
  induction l with
  | nil => rfl
  | cons p tl ih =>
    cases hu : isUndef p.2 with
    | true => simpa [jsFieldsOfList, hashFields, hu, List.filter] using ih
    | false => simpa [jsFieldsOfList, hashFields, hu, List.filter] using ih

theorem hashFields_perm {l1 l2 : List (String × JSVal)} (h : List.Perm l1 l2) :
    List.Perm (hashFields (jsFieldsOfList l1)) (hashFields (jsFieldsOfList l2)) := by
  rw [hashFields_ofList, hashFields_ofList]
  exact (h.filter _).map _

theorem hashFields_keys_nodup {l : List (String × JSVal)}
    (h : (l.map Prod.fst).Nodup) :
    ((hashFields (jsFieldsOfList l)).map Prod.fst).Nodup := by
  rw [hashFields_ofList]
  have hmap : ((l.filter (fun p => !isUndef p.2)).map
      (fun p => (p.1, stableHash p.2))).map Prod.fst =
      (l.filter (fun p => !isUndef p.2)).map Prod.fst := by
    simp [List.map_map, Function.comp]
  rw [hmap]
  exact ((List.filter_sublist l).map Prod.fst).nodup h

theorem sortFieldsDesc_eq_of_perm {A B : List (String × String)} (h : List.Perm A B)
    (hA : (A.map Prod.fst).Nodup) (hB : (B.map Prod.fst).Nodup) :
    sortFieldsDesc A = sortFieldsDesc B := by
  unfold sortFieldsDesc
  have pA := List.perm_insertionSort fieldGe A
  have pB := List.perm_insertionSort fieldGe B
  have sA : (List.insertionSort fieldGe A).Sorted fieldGt :=
    sorted_fieldGt_of_sorted_fieldGe (List.sorted_insertionSort fieldGe A)
      (((pA.map Prod.fst).nodup_iff).mpr hA)
  have sB : (List.insertionSort fieldGe B).Sorted fieldGt :=
    sorted_fieldGt_of_sorted_fieldGe (List.sorted_insertionSort fieldGe B)
      (((pB.map Prod.fst).nodup_iff).mpr hB)
  exact List.eq_of_perm_of_sorted (pA.trans (h.trans pB.symm)) sA sB

/-! Claims. -/

/-- C7: `serialize` invokes a callable key with no arguments and treats a
throw as the empty key (serialized form `""`, fetching disabled); a string
key serializes to itself; a falsy key or an empty array serializes to `""`;
a non-empty array or any other truthy value serializes to its stable hash;
and the returned fetcher argument is always the pre-serialization resolved
value. -/
theorem c7_serialize_contract :
    (∀ u : Unit, serialize (.thunk (.error u)) = ("", .str "")) ∧
    (∀ s : String, serialize (.direct (.str s)) = (s, .str s)) ∧
    (∀ v : JSVal, jsTruthy v = false → (serialize (.direct v)).1 = "") ∧
    (serialize (.direct (arrOfList []))).1 = "" ∧
    (∀ (x : JSVal) (xs : JSList),
      (serialize (.direct (.arr (.cons x xs)))).1 = stableHash (.arr (.cons x xs))) ∧
    (∀ v : JSVal, jsTruthy v = true → (∀ s, v ≠ .str s) → (∀ xs, v ≠ .arr xs) →
      (serialize (.direct v)).1 = stableHash v) ∧
    (∀ v : JSVal, (serialize (.direct v)).2 = v) ∧
    (∀ v : JSVal, (serialize (.thunk (.ok v))).2 = v) ∧
    (∀ (Data Err : Type) (dedupe hf um pz : Bool) (g : GS Data Err),
      revalidateDispatch "" dedupe hf um pz g = (none, g)) := by
  refine ⟨fun _ => rfl, fun _ => rfl, ?_, rfl, fun _ _ => rfl, ?_, fun _ => rfl,
    fun _ => rfl, fun _ _ _ _ _ _ _ => rfl⟩
  · intro v hv
    cases v with
    | str s =>
      have : s = "" := by simpa [jsTruthy] using hv
      simp [serialize, this]
    | num n => simp [serialize, hv]
    | bool b => simp [serialize, hv]
    | null => rfl
    | undef => rfl
    | date iso => simp [jsTruthy] at hv
    | sym desc => simp [jsTruthy] at hv
    | arr xs => simp [jsTruthy] at hv
    | obj fs => simp [jsTruthy] at hv
  · intro v hv hs ha
    cases v with
    | str s => exact absurd rfl (hs s)
    | arr xs => exact absurd rfl (ha xs)
    | num n => simp [serialize, hv]
    | bool b => simp [serialize, hv]
    | null => simp [jsTruthy] at hv
    | undef => simp [jsTruthy] at hv
    | date iso => simp [serialize, hv]
    | sym desc => simp [serialize, hv]
    | obj fs => simp [serialize, hv]

/-- Witness for C7: the hypotheses of the falsy clause at `0` and of the
truthy non-array clause at the empty object are dischargeable, and the
clauses evaluate as stated there. -/
theorem c7_witness :
    jsTruthy (JSVal.num 0) = false ∧
    (serialize (.direct (JSVal.num 0))).1 = "" ∧
    jsTruthy (objOfList []) = true ∧
    (serialize (.direct (objOfList []))).1 = stableHash (objOfList []) :=
  ⟨by decide, c7_serialize_contract.2.2.1 (JSVal.num 0) (by decide), by decide,
    c7_serialize_contract.2.2.2.2.2.1 (objOfList []) (by decide)
      (fun s h => JSVal.noConfusion h) (fun xs h => JSVal.noConfusion h)⟩

/-- C8: `stableHash` is deterministic (hashing a value twice yields the
same string); plain objects that are permutations of each other's fields
(distinct keys, different insertion orders) hash identically; and a string
element hashes differently from the same-looking number element, so
`hash([1,"1"])` differs from `hash([1,1])`. -/
theorem c8_stable_hash_properties :
    (∀ v : JSVal, stableHash v = stableHash v) ∧
    (∀ l1 l2 : List (String × JSVal), List.Perm l1 l2 →
      (l1.map Prod.fst).Nodup →
      stableHash (objOfList l1) = stableHash (objOfList l2)) ∧
    stableHash (arrOfList [.num 1, .str "1"]) ≠
      stableHash (arrOfList [.num 1, .num 1]) := by
  refine ⟨fun _ => rfl, ?_, by decide⟩
  intro l1 l2 hp hn
  have hn2 : (l2.map Prod.fst).Nodup := ((hp.map Prod.fst).nodup_iff).mp hn
  have key := sortFieldsDesc_eq_of_perm (hashFields_perm hp)
    (hashFields_keys_nodup hn) (hashFields_keys_nodup hn2)
  simp only [objOfList, stableHash, key]

/-- Witness for C8 at the spec's example: `{b:2,a:1}` and `{a:1,b:2}` are
permutations with distinct keys and hash identically. -/
theorem c8_witness :
    List.Perm [("b", JSVal.num 2), ("a", JSVal.num 1)]
      [("a", JSVal.num 1), ("b", JSVal.num 2)] ∧
    ([("b", JSVal.num 2), ("a", JSVal.num 1)].map Prod.fst).Nodup ∧
    stableHash (objOfList [("b", JSVal.num 2), ("a", JSVal.num 1)]) =
      stableHash (objOfList [("a", JSVal.num 1), ("b", JSVal.num 2)]) :=
  ⟨List.Perm.swap _ _ _, by decide,
    c8_stable_hash_properties.2.1 _ _ (List.Perm.swap _ _ _) (by decide)⟩

/-- C9: calling `preload` twice before the stored entry is consumed invokes
the fetcher exactly once — the first call invokes it, stores the resulting
promise under the serialized key and returns it; the second call returns
that same stored promise with the state unchanged. -/
theorem c9_preload_idempotent {Data Err : Type} (input : KeyInput)
    (g : GS Data Err) (h : g.preloadTable (serialize input).1 = none) :
    (preload input g).2.fetchCount = g.fetchCount + 1 ∧
    (preload input g).2.preloadTable (serialize input).1 = some (preload input g).1 ∧
    preload input (preload input g).2 = ((preload input g).1, (preload input g).2) := by
  simp only [preload, h, upd]
  simp

/-- Witness for C9: the empty state has no preload record for `"p"`, and
the two calls behave as stated there. -/
theorem c9_witness :
    (emptyGS : GS Nat Nat).preloadTable (serialize (.direct (.str "p"))).1 = none ∧
    ((preload (.direct (.str "p")) (emptyGS : GS Nat Nat)).2.fetchCount =
        (emptyGS : GS Nat Nat).fetchCount + 1 ∧
      (preload (.direct (.str "p")) (emptyGS : GS Nat Nat)).2.preloadTable
          (serialize (.direct (.str "p"))).1 =
        some (preload (.direct (.str "p")) (emptyGS : GS Nat Nat)).1 ∧
      preload (.direct (.str "p")) (preload (.direct (.str "p")) (emptyGS : GS Nat Nat)).2 =
        ((preload (.direct (.str "p")) (emptyGS : GS Nat Nat)).1,
         (preload (.direct (.str "p")) (emptyGS : GS Nat Nat)).2)) :=
  ⟨rfl, c9_preload_idempotent (.direct (.str "p")) emptyGS rfl⟩

/-- C10: for every key whose serialized form is the empty string,
`internalMutate`'s per-key path returns `undefined` immediately: no cache
write, no mutation-ledger entry, no deletion of in-flight or preload
records, and no revalidation is triggered (the whole state is returned
unchanged and no event fires). -/
theorem c10_mutate_falsy_key {Data Err : Type} (input : KeyInput)
    (opts : MutOptions Data Err) (arg : MutData Data Err) (g : GS Data Err)
    (h : (serialize input).1 = "") :
    mutateByKey input opts arg g = .finished (.returned none) [] g := by
  simp [mutateByKey, h]

/-- Witness for C10: `null` serializes to the empty key, and the mutation
returns `undefined` leaving the state untouched. -/
theorem c10_witness :
    (serialize (KeyInput.direct .null)).1 = "" ∧
    mutateByKey (KeyInput.direct .null) ({} : MutOptions Nat Nat)
        (.now (.plain (some 3))) emptyGS =
      .finished (.returned none) [] emptyGS :=
  ⟨rfl, c10_mutate_falsy_key (KeyInput.direct .null) {} (.now (.plain (some 3)))
    emptyGS rfl⟩

/-- C4: after awaiting, if the mutation ledger's start timestamp for the
key no longer equals the timestamp this call recorded, the call performs no
cache writes at all — the state is returned unchanged and no event fires —
and it still returns its own awaited data, or rethrows its own error. -/
theorem c4_mutation_race {Data Err : Type} (opts : MutOptions Data Err)
    (ctx : MutCtx Data) (outcome : Except Err (Option Data)) (g : GS Data Err)
    (h : (g.mutationTable ctx.key).map Prod.fst ≠ some ctx.beforeMutationTs) :
    mutateSettle opts ctx outcome g =
      (match outcome with
       | .ok v => MutResult.returned v
       | .error e => MutResult.thrown e, [], g) := by
  cases outcome with
  | ok v => simp [mutateSettle, h]
  | error e => simp [mutateSettle, h]

/-- Witness for C4: a concrete state whose ledger does not carry the
remembered timestamp, for both a resolving and a rejecting mutation. -/
theorem c4_witness :
    ((emptyGS : GS Nat Nat).mutationTable "k").map Prod.fst ≠ some 5 ∧
    mutateSettle ({} : MutOptions Nat Nat) ⟨"k", 5, some 1, false⟩
        (.ok (some 2)) emptyGS = (.returned (some 2), [], emptyGS) ∧
    mutateSettle ({} : MutOptions Nat Nat) ⟨"k", 5, some 1, false⟩
        (.error 9) emptyGS = (.thrown 9, [], emptyGS) :=
  ⟨by decide,
    c4_mutation_race {} ⟨"k", 5, some 1, false⟩ (.ok (some 2)) emptyGS (by decide),
    c4_mutation_race {} ⟨"k", 5, some 1, false⟩ (.error 9) emptyGS (by decide)⟩

/-- C5 (amended): with committed cache value `V`,
`mutate(key, rejectingPromise, \x7boptimisticData: X, rollbackOnError: true\x7d)`
first writes `X` into the cache entry's `data`; after the rejection (with
no newer mutation racing in) the entry's `data` is restored to `V`, the
rejection is rethrown to this caller, and the cache entry's `error` field
is left unchanged — it is NOT set to the rejection reason (internalMutate
writes `error` only on the success-populate path). -/
theorem c5_optimistic_rollback {Data Err : Type} (k : String) (V X : Data)
    (e : Err) (E0 : Option Err) (iv il : Option Bool) (g : GS Data Err)
    (opts : MutOptions Data Err)
    (hk : (k == "") = false)
    (hc : g.cacheTable k = some ⟨some V, E0, iv, il, none⟩)
    (hopt : opts.optimisticData = .value X)
    (hrb : opts.rollbackOnError = .flag true)
    (hth : opts.throwOnError = true)
    (hrv : opts.revalidate = none) :
    mutateByKey (.direct (.str k)) opts (.now .pending) g =
      .suspended ⟨k, g.now + 1, some V, true⟩
        (mutateByKey (.direct (.str k)) opts (.now .pending) g).stateOf ∧
    (getCache (mutateByKey (.direct (.str k)) opts (.now .pending) g).stateOf k).data
      = some X ∧
    (getCache (mutateByKey (.direct (.str k)) opts (.now .pending) g).stateOf k).error
      = E0 ∧
    (mutateSettle opts ⟨k, g.now + 1, some V, true⟩ (.error e)
        (mutateByKey (.direct (.str k)) opts (.now .pending) g).stateOf).1
      = .thrown e ∧
    (getCache
        (mutateSettle opts ⟨k, g.now + 1, some V, true⟩ (.error e)
          (mutateByKey (.direct (.str k)) opts (.now .pending) g).stateOf).2.2 k).data
      = some V ∧
    (getCache
        (mutateSettle opts ⟨k, g.now + 1, some V, true⟩ (.error e)
          (mutateByKey (.direct (.str k)) opts (.now .pending) g).stateOf).2.2 k).error
      = E0 := by
  have hstep : mutateByKey (.direct (.str k)) opts (.now .pending) g =
      .suspended ⟨k, g.now + 1, some V, true⟩
        (setCache
          { g with now := g.now + 1,
                   mutationTable := upd g.mutationTable k (some (g.now + 1, 0)) }
          k { data := some (some X), _c := some (some V) }) := by
    simp [mutateByKey, serialize, hk, hopt, getTimestamp, getCache, hc]
  rw [hstep]
  simp only [MutStep.stateOf]
  have hmid : (setCache
      { g with now := g.now + 1,
               mutationTable := upd g.mutationTable k (some (g.now + 1, 0)) }
      k { data := some (some X), _c := some (some V) }).cacheTable k =
      some ⟨some X, E0, iv, il, some V⟩ := by
    simp [setCache, upd, getCache, hc, mergeState]
  refine ⟨?_, ?_, ?_, ?_, ?_, ?_⟩
  · trivial
  · simp [getCache, hmid]
  · simp [getCache, hmid]
  · simp [mutateSettle, setCache, upd, mutateTail, hrb, rollbackDecision,
      startRevalidate, hrv, hth, getTimestamp]
  · simp [mutateSettle, setCache, upd, mutateTail, hrb, rollbackDecision,
      startRevalidate, hrv, hth, getTimestamp, getCache, hc, mergeState, hmid]
  · simp [mutateSettle, setCache, upd, mutateTail, hrb, rollbackDecision,
      startRevalidate, hrv, hth, getTimestamp, getCache, hc, mergeState, hmid]

/-- Witness for C5 (amended) at a concrete state with committed value `1`,
optimistic value `2` and rejection `7`. -/
theorem c5_witness :
    (("k" == "") = false) ∧
    (setCache (emptyGS : GS Nat Nat) "k" { data := some (some 1) }).cacheTable "k" =
      some ⟨some 1, none, none, none, none⟩ ∧
    (getCache
        (mutateSettle
          ({ optimisticData := .value 2, rollbackOnError := .flag true } : MutOptions Nat Nat)
          ⟨"k", (setCache (emptyGS : GS Nat Nat) "k" { data := some (some 1) }).now + 1,
            some 1, true⟩
          (.error 7)
          (mutateByKey (.direct (.str "k"))
            ({ optimisticData := .value 2, rollbackOnError := .flag true } : MutOptions Nat Nat)
            (.now .pending)
            (setCache (emptyGS : GS Nat Nat) "k" { data := some (some 1) })).stateOf).2.2
        "k").data = some 1 :=
  ⟨rfl, by decide,
    (c5_optimistic_rollback "k" 1 2 7 none none none
      (setCache emptyGS "k" { data := some (some 1) })
      { optimisticData := .value 2, rollbackOnError := .flag true }
      rfl (by decide) rfl rfl rfl rfl).2.2.2.2.1⟩

/-- Counterexample for C5 as stated: after the rollback
the cache entry's `error` is `undefined`, not the rejection reason `7`. -/
theorem c5_counterexample :
    (mutateSettle
        ({ optimisticData := .value 2, rollbackOnError := .flag true } : MutOptions Nat Nat)
        ⟨"k", 1, some 1, true⟩ (.error 7)
        (mutateByKey (.direct (.str "k"))
          ({ optimisticData := .value 2, rollbackOnError := .flag true } : MutOptions Nat Nat)
          (.now .pending)
          (setCache (emptyGS : GS Nat Nat) "k" { data := some (some 1) })).stateOf).1
      = .thrown 7 ∧
    (getCache
        (mutateSettle
          ({ optimisticData := .value 2, rollbackOnError := .flag true } : MutOptions Nat Nat)
          ⟨"k", 1, some 1, true⟩ (.error 7)
          (mutateByKey (.direct (.str "k"))
            ({ optimisticData := .value 2, rollbackOnError := .flag true } : MutOptions Nat Nat)
            (.now .pending)
            (setCache (emptyGS : GS Nat Nat) "k" { data := some (some 1) })).stateOf).2.2
        "k").data = some 1 ∧
    (getCache
        (mutateSettle
          ({ optimisticData := .value 2, rollbackOnError := .flag true } : MutOptions Nat Nat)
          ⟨"k", 1, some 1, true⟩ (.error 7)
          (mutateByKey (.direct (.str "k"))
            ({ optimisticData := .value 2, rollbackOnError := .flag true } : MutOptions Nat Nat)
            (.now .pending)
            (setCache (emptyGS : GS Nat Nat) "k" { data := some (some 1) })).stateOf).2.2
        "k").error = none ∧
    (getCache
        (mutateSettle
          ({ optimisticData := .value 2, rollbackOnError := .flag true } : MutOptions Nat Nat)
          ⟨"k", 1, some 1, true⟩ (.error 7)
          (mutateByKey (.direct (.str "k"))
            ({ optimisticData := .value 2, rollbackOnError := .flag true } : MutOptions Nat Nat)
            (.now .pending)
            (setCache (emptyGS : GS Nat Nat) "k" { data := some (some 1) })).stateOf).2.2
        "k").error ≠ some 7 := by decide

/-- C2: given the preconditions pass (truthy key, fetcher present, mounted,
not paused), a revalidate call dispatches a new fetcher invocation iff
there is no in-flight record or the call does not request deduplication;
a joiner receives exactly the registered promise and timestamp with the
state unchanged; and two revalidations — the second within the deduping
window with dedupe enabled — invoke the fetcher exactly once and await the
same promise. -/
theorem c2_dedupe {Data Err : Type} (k : String) (dedupe : Bool)
    (g : GS Data Err) (hk : (k == "") = false) :
    ((revalidateDispatch k dedupe true false false g).2.fetchCount =
        g.fetchCount + 1 ↔ (g.fetchTable k = none ∨ dedupe = false)) ∧
    (∀ p t, g.fetchTable k = some (p, t) → dedupe = true →
      revalidateDispatch k dedupe true false false g = (some ⟨false, p, t⟩, g)) ∧
    (g.fetchTable k = none →
      (revalidateDispatch k dedupe true false false g).1 =
        some ⟨true, g.nextPromise, g.now + 1⟩ ∧
      (revalidateDispatch k dedupe true false false g).2.fetchCount =
        g.fetchCount + 1 ∧
      revalidateDispatch k true true false false
          (revalidateDispatch k dedupe true false false g).2 =
        (some ⟨false, g.nextPromise, g.now + 1⟩,
          (revalidateDispatch k dedupe true false false g).2)) := by
  refine ⟨?_, ?_, ?_⟩
  · cases hf : g.fetchTable k with
    | none => cases dedupe <;> simp [revalidateDispatch, hk, hf, upd, setCache]
    | some r => cases dedupe <;> simp [revalidateDispatch, hk, hf, upd, setCache]
  · intro p t hf hd
    simp [revalidateDispatch, hk, hf, hd]
  · intro hf
    refine ⟨?_, ?_, ?_⟩ <;>
      simp [revalidateDispatch, hk, hf, upd, setCache]

/-- Witness for C2 on a fresh state with key `"k"`. -/
theorem c2_witness :
    (("k" == "") = false) ∧
    (((revalidateDispatch "k" true true false false (emptyGS : GS Nat Nat)).2.fetchCount =
        (emptyGS : GS Nat Nat).fetchCount + 1 ↔
        ((emptyGS : GS Nat Nat).fetchTable "k" = none ∨ true = false)) ∧
      (∀ p t, (emptyGS : GS Nat Nat).fetchTable "k" = some (p, t) → true = true →
        revalidateDispatch "k" true true false false (emptyGS : GS Nat Nat) =
          (some ⟨false, p, t⟩, emptyGS)) ∧
      ((emptyGS : GS Nat Nat).fetchTable "k" = none →
        (revalidateDispatch "k" true true false false (emptyGS : GS Nat Nat)).1 =
          some ⟨true, (emptyGS : GS Nat Nat).nextPromise, (emptyGS : GS Nat Nat).now + 1⟩ ∧
        (revalidateDispatch "k" true true false false (emptyGS : GS Nat Nat)).2.fetchCount =
          (emptyGS : GS Nat Nat).fetchCount + 1 ∧
        revalidateDispatch "k" true true false false
            (revalidateDispatch "k" true true false false (emptyGS : GS Nat Nat)).2 =
          (some ⟨false, (emptyGS : GS Nat Nat).nextPromise, (emptyGS : GS Nat Nat).now + 1⟩,
            (revalidateDispatch "k" true true false false (emptyGS : GS Nat Nat)).2))) :=
  ⟨rfl, c2_dedupe "k" true emptyGS rfl⟩

/-- C1 (amended): when a revalidation's fetch FULFILLS while the in-flight
record no longer carries its remembered timestamp (a later dispatch
overwrote it), the result is discarded: `revalidate` returns `false`,
nothing at all is written to the cache (so neither `data` nor `error`),
`onSuccess`/`onError` do not fire, and `onDiscarded` fires only for the
original dispatcher.  A fulfilled result is committed only when the record
still carries the call's own timestamp, so only the last-dispatched
request's fulfilled result is ever committed.  When the fetch REJECTS,
however, the staleness check is skipped: the error path still records the
error and the call returns `true`. -/
theorem c1_stale_discard {Data Err : Type} (k : String) (ctx : RevCtx)
    (d : Data) (sg pc : Bool) (cmp : Option Data → Data → Bool)
    (g : GS Data Err)
    (h : (g.fetchTable k).map Prod.snd ≠ some ctx.startAt) :
    (revalidateSettle k ctx (.ok d) sg pc cmp g).ret = false ∧
    (revalidateSettle k ctx (.ok d) sg pc cmp g).g = g ∧
    (revalidateSettle k ctx (.ok d) sg pc cmp g).events =
      (if ctx.shouldStart && sg then [.discarded] else []) ∧
    (Ev.discarded ∈ (revalidateSettle k ctx (.ok d) sg pc cmp g).events →
      ctx.shouldStart = true) ∧
    (∀ d' : Data, Ev.success d' ∉ (revalidateSettle k ctx (.ok d) sg pc cmp g).events) ∧
    (∀ e : Err, Ev.failure e ∉ (revalidateSettle k ctx (.ok d) sg pc cmp g).events) ∧
    (∀ (g2 : GS Data Err) (d2 : Data),
      (revalidateSettle k ctx (.ok d2) sg pc cmp g2).ret = true →
      (g2.fetchTable k).map Prod.snd = some ctx.startAt) := by
  have hstale : revalidateSettle k ctx (.ok d) sg pc cmp g =
      { ret := false,
        events := if ctx.shouldStart && sg then [.discarded] else [],
        scheduledCleanup := ctx.shouldStart, g := g } := by
    cases hf : g.fetchTable k with
    | none => simp [revalidateSettle, hf]
    | some r =>
      have hr : (r.2 == ctx.startAt) = false := by
        rw [hf] at h
        simpa using h
      simp [revalidateSettle, hf, hr]
  refine ⟨by rw [hstale], by rw [hstale], by rw [hstale], ?_, ?_, ?_, ?_⟩
  · rw [hstale]
    cases hss : ctx.shouldStart <;> simp
  · intro d'
    rw [hstale]
    cases ctx.shouldStart && sg <;> simp
  · intro e
    rw [hstale]
    cases ctx.shouldStart && sg <;> simp
  · intro g2 d2 hret
    by_contra hne
    have hfalse : (revalidateSettle k ctx (.ok d2) sg pc cmp g2).ret = false := by
      cases hf : g2.fetchTable k with
      | none => simp [revalidateSettle, hf]
      | some r =>
        have hr : (r.2 == ctx.startAt) = false := by
          rw [hf] at hne
          simpa using hne
        simp [revalidateSettle, hf, hr]
    rw [hret] at hfalse
    exact absurd hfalse (by simp)

/-- Witness for C1 (amended): the second dispatch overwrote the record, so
R1's fulfilled settle is discarded as stated. -/
theorem c1_witness :
    ((dispatchTwiceG.fetchTable "k").map Prod.snd ≠ some 1) ∧
    ((revalidateSettle "k" ⟨true, 0, 1⟩ (.ok 5) true false (fun _ _ => false)
        dispatchTwiceG).ret = false ∧
      (revalidateSettle "k" ⟨true, 0, 1⟩ (.ok 5) true false (fun _ _ => false)
        dispatchTwiceG).g = dispatchTwiceG ∧
      (revalidateSettle "k" ⟨true, 0, 1⟩ (.ok 5) true false (fun _ _ => false)
          dispatchTwiceG).events =
        (if (⟨true, 0, 1⟩ : RevCtx).shouldStart && true then [.discarded] else []) ∧
      (Ev.discarded ∈ (revalidateSettle "k" ⟨true, 0, 1⟩ (.ok 5) true false
          (fun _ _ => false) dispatchTwiceG).events →
        (⟨true, 0, 1⟩ : RevCtx).shouldStart = true) ∧
      (∀ d' : Nat, Ev.success d' ∉ (revalidateSettle "k" ⟨true, 0, 1⟩ (.ok 5) true false
        (fun _ _ => false) dispatchTwiceG).events) ∧
      (∀ e : Nat, Ev.failure e ∉ (revalidateSettle "k" ⟨true, 0, 1⟩ (.ok 5) true false
        (fun _ _ => false) dispatchTwiceG).events) ∧
      (∀ (g2 : GS Nat Nat) (d2 : Nat),
        (revalidateSettle "k" ⟨true, 0, 1⟩ (.ok d2) true false (fun _ _ => false) g2).ret = true →
        (g2.fetchTable "k").map Prod.snd = some (⟨true, 0, 1⟩ : RevCtx).startAt)) :=
  ⟨by decide,
    c1_stale_discard "k" ⟨true, 0, 1⟩ 5 true false (fun _ _ => false)
      dispatchTwiceG (by decide)⟩

/-- Counterexample for C1 as stated: a stale revalidation whose fetch
settles by REJECTION is not discarded — it returns `true`, writes the
error into the cache entry, and fires `onError`. -/
theorem c1_counterexample :
    ((dispatchTwiceG.fetchTable "k").map Prod.snd ≠ some 1) ∧
    (revalidateSettle "k" ⟨true, 0, 1⟩ (.err 3) true false (fun _ _ => false)
        dispatchTwiceG).ret = true ∧
    (getCache (revalidateSettle "k" ⟨true, 0, 1⟩ (.err 3) true false
        (fun _ _ => false) dispatchTwiceG).g "k").error = some 3 ∧
    (revalidateSettle "k" ⟨true, 0, 1⟩ (.err 3) true false (fun _ _ => false)
        dispatchTwiceG).events = [.failure 3] := by decide

/-- C3 (amended): when a fulfilled fetch survives the staleness check but a
mutation record overlaps it (dispatch timestamp at or before the mutation's
start, at or before its end, or the mutation still open), the result is
discarded: `revalidate` returns `false`, `isValidating` and `isLoading` are
set to `false`, `onDiscarded` fires exactly for the original dispatcher
(when the callback safeguard holds), `onSuccess`/`onError` do not fire, and
the cache entry's `data` is not overwritten — but the entry's `error` IS
overwritten: it is cleared to `undefined` (the final state always carries
`error: undefined` once the staleness check has passed). -/
theorem c3_mutation_overlap {Data Err : Type} (k : String) (ctx : RevCtx)
    (d : Data) (sg pc : Bool) (cmp : Option Data → Data → Bool)
    (g : GS Data Err) (p m1 m2 : Nat)
    (hf : g.fetchTable k = some (p, ctx.startAt))
    (hm : g.mutationTable k = some (m1, m2))
    (hcond : ctx.startAt ≤ m1 ∨ ctx.startAt ≤ m2 ∨ m2 = 0) :
    (revalidateSettle k ctx (.ok d) sg pc cmp g).ret = false ∧
    (getCache (revalidateSettle k ctx (.ok d) sg pc cmp g).g k).isValidating
      = some false ∧
    (getCache (revalidateSettle k ctx (.ok d) sg pc cmp g).g k).isLoading
      = some false ∧
    (getCache (revalidateSettle k ctx (.ok d) sg pc cmp g).g k).data
      = (getCache g k).data ∧
    (getCache (revalidateSettle k ctx (.ok d) sg pc cmp g).g k).error = none ∧
    (revalidateSettle k ctx (.ok d) sg pc cmp g).events =
      (if ctx.shouldStart && sg then [.discarded] else []) ∧
    (∀ d' : Data, Ev.success d' ∉ (revalidateSettle k ctx (.ok d) sg pc cmp g).events) ∧
    (∀ e : Err, Ev.failure e ∉ (revalidateSettle k ctx (.ok d) sg pc cmp g).events) := by
  have hb : (decide (ctx.startAt ≤ m1) || decide (ctx.startAt ≤ m2) || (m2 == 0)) = true := by
    rcases hcond with hx | hx | hx <;> simp [hx]
  have hr : revalidateSettle k ctx (.ok d) sg pc cmp g =
      { ret := false,
        events := if ctx.shouldStart && sg then [.discarded] else [],
        scheduledCleanup := ctx.shouldStart,
        g := setCache g k
          { isValidating := some false, isLoading := some false,
            error := some none } } := by
    simp [revalidateSettle, hf, hm, hb]
  rw [hr]
  refine ⟨rfl, ?_, ?_, ?_, ?_, rfl, ?_, ?_⟩
  · simp [getCache, setCache, upd, mergeState]
  · simp [getCache, setCache, upd, mergeState]
  · simp [getCache, setCache, upd, mergeState]
  · simp [getCache, setCache, upd, mergeState]
  · intro d'
    cases ctx.shouldStart && sg <;> simp
  · intro e
    cases ctx.shouldStart && sg <;> simp

/-- Witness for C3 (amended) on `mutationOverlapG` (fetch at ts 5, open
mutation opened at ts 5, prior error 9). -/
theorem c3_witness :
    mutationOverlapG.fetchTable "k" = some (0, 5) ∧
    mutationOverlapG.mutationTable "k" = some (5, 0) ∧
    ((5 : Nat) ≤ 5 ∨ (5 : Nat) ≤ 0 ∨ (0 : Nat) = 0) ∧
    ((revalidateSettle "k" ⟨true, 9, 5⟩ (.ok 7) true false (fun _ _ => false)
        mutationOverlapG).ret = false ∧
      (getCache (revalidateSettle "k" ⟨true, 9, 5⟩ (.ok 7) true false
          (fun _ _ => false) mutationOverlapG).g "k").isValidating = some false ∧
      (getCache (revalidateSettle "k" ⟨true, 9, 5⟩ (.ok 7) true false
          (fun _ _ => false) mutationOverlapG).g "k").isLoading = some false ∧
      (getCache (revalidateSettle "k" ⟨true, 9, 5⟩ (.ok 7) true false
          (fun _ _ => false) mutationOverlapG).g "k").data =
        (getCache mutationOverlapG "k").data ∧
      (getCache (revalidateSettle "k" ⟨true, 9, 5⟩ (.ok 7) true false
          (fun _ _ => false) mutationOverlapG).g "k").error = none ∧
      (revalidateSettle "k" ⟨true, 9, 5⟩ (.ok 7) true false (fun _ _ => false)
          mutationOverlapG).events =
        (if (⟨true, 9, 5⟩ : RevCtx).shouldStart && true then [.discarded] else []) ∧
      (∀ d' : Nat, Ev.success d' ∉ (revalidateSettle "k" ⟨true, 9, 5⟩ (.ok 7) true false
        (fun _ _ => false) mutationOverlapG).events) ∧
      (∀ e : Nat, Ev.failure e ∉ (revalidateSettle "k" ⟨true, 9, 5⟩ (.ok 7) true false
        (fun _ _ => false) mutationOverlapG).events)) :=
  ⟨by decide, by decide, by decide,
    c3_mutation_overlap "k" ⟨true, 9, 5⟩ 7 true false (fun _ _ => false)
      mutationOverlapG 0 5 0 (by decide) (by decide) (by decide)⟩

/-- Counterexample for C3 as stated: on the mutation-overlap discard the
cache entry's previous `error` (9) is overwritten — cleared to
`undefined` — contradicting "the cache entry's data and error are not
overwritten". -/
theorem c3_counterexample :
    (getCache mutationOverlapG "k").error = some 9 ∧
    (getCache (revalidateSettle "k" ⟨true, 9, 5⟩ (.ok 7) true false
        (fun _ _ => false) mutationOverlapG).g "k").error = none ∧
    (getCache (revalidateSettle "k" ⟨true, 9, 5⟩ (.ok 7) true false
        (fun _ _ => false) mutationOverlapG).g "k").error ≠
      (getCache mutationOverlapG "k").error := by decide

/-- C6 (amended): a revalidate call that dispatched or joined a fetch
finalizes by setting `isValidating = false` and `isLoading = false` when
the fetch fulfills and the in-flight record still carries the call's
timestamp (whether the result is then committed or discarded by the
mutation-overlap check), and when the fetch rejects; on the staleness
discard (a newer dispatch replaced the record) NO final state is written at
all.  If the call was the original dispatcher and the fetch fulfilled,
deletion of the in-flight record is scheduled after the deduping interval
and performed only if no newer dispatch has replaced the record's
timestamp; if the fetch rejected, the record is deleted immediately (again
only when its timestamp still matches) and nothing is scheduled. -/
theorem c6_finalize {Data Err : Type} (k : String) (ctx : RevCtx)
    (sg pc : Bool) (cmp : Option Data → Data → Bool) :
    (∀ (g : GS Data Err) (d : Data) (p : Nat),
      g.fetchTable k = some (p, ctx.startAt) →
      (getCache (revalidateSettle k ctx (.ok d) sg pc cmp g).g k).isValidating
        = some false ∧
      (getCache (revalidateSettle k ctx (.ok d) sg pc cmp g).g k).isLoading
        = some false ∧
      (revalidateSettle k ctx (.ok d) sg pc cmp g).scheduledCleanup
        = ctx.shouldStart) ∧
    (∀ (g : GS Data Err) (e : Err),
      (getCache (revalidateSettle k ctx (.err e) sg pc cmp g).g k).isValidating
        = some false ∧
      (getCache (revalidateSettle k ctx (.err e) sg pc cmp g).g k).isLoading
        = some false ∧
      (revalidateSettle k ctx (.err e) sg pc cmp g).scheduledCleanup = false ∧
      ((g.fetchTable k).map Prod.snd = some ctx.startAt →
        (revalidateSettle k ctx (.err e) sg pc cmp g).g.fetchTable k = none) ∧
      ((g.fetchTable k).map Prod.snd ≠ some ctx.startAt →
        (revalidateSettle k ctx (.err e) sg pc cmp g).g.fetchTable k
          = g.fetchTable k)) ∧
    (∀ (g : GS Data Err) (d : Data),
      (g.fetchTable k).map Prod.snd ≠ some ctx.startAt →
      (revalidateSettle k ctx (.ok d) sg pc cmp g).g = g ∧
      (revalidateSettle k ctx (.ok d) sg pc cmp g).scheduledCleanup
        = ctx.shouldStart) ∧
    (∀ (t : Nat) (g : GS Data Err),
      (cleanupState k t g).fetchTable k =
        if (g.fetchTable k).map Prod.snd = some t then none
        else g.fetchTable k) := by
  refine ⟨?_, ?_, ?_, ?_⟩
  · intro g d p hf
    cases hm : g.mutationTable k with
    | none =>
      refine ⟨?_, ?_, ?_⟩ <;>
        simp [revalidateSettle, hf, hm, getCache, setCache, upd, mergeState]
    | some m =>
      by_cases hcond :
          (decide (ctx.startAt ≤ m.1) || decide (ctx.startAt ≤ m.2) || (m.2 == 0)) = true
      · refine ⟨?_, ?_, ?_⟩ <;>
          simp [revalidateSettle, hf, hm, hcond, getCache, setCache, upd, mergeState]
      · rw [Bool.not_eq_true] at hcond
        refine ⟨?_, ?_, ?_⟩ <;>
          simp [revalidateSettle, hf, hm, hcond, getCache, setCache, upd, mergeState]
  · intro g e
    refine ⟨?_, ?_, ?_, ?_, ?_⟩
    · cases pc <;>
        simp [revalidateSettle, getCache, setCache, upd, mergeState]
    · cases pc <;>
        simp [revalidateSettle, getCache, setCache, upd, mergeState]
    · cases pc <;> simp [revalidateSettle]
    · intro hmatch
      cases hf : g.fetchTable k with
      | none => rw [hf] at hmatch; simp at hmatch
      | some r =>
        rw [hf] at hmatch
        have hr : (r.2 == ctx.startAt) = true := by simpa using hmatch
        cases pc <;>
          simp [revalidateSettle, cleanupState, hf, hr, setCache, upd]
    · intro hmatch
      cases hf : g.fetchTable k with
      | none =>
        cases pc <;> simp [revalidateSettle, cleanupState, hf, setCache]
      | some r =>
        rw [hf] at hmatch
        have hr : (r.2 == ctx.startAt) = false := by simpa using hmatch
        cases pc <;>
          simp [revalidateSettle, cleanupState, hf, hr, setCache, upd]
  · intro g d hne
    cases hf : g.fetchTable k with
    | none => constructor <;> simp [revalidateSettle, hf]
    | some r =>
      rw [hf] at hne
      have hr : (r.2 == ctx.startAt) = false := by simpa using hne
      constructor <;> simp [revalidateSettle, hf, hr]
  · intro t g
    cases hf : g.fetchTable k with
    | none => simp [cleanupState, hf]
    | some r =>
      by_cases hr : r.2 = t
      · simp [cleanupState, hf, hr, upd]
      · have hr' : (r.2 == t) = false := by simpa using hr
        simp [cleanupState, hf, hr', upd, hr]

/-- Witness for C6 (amended): on a single-dispatch state the fulfilled
settle finalizes and schedules cleanup; the cleanup clause evaluates on the
twice-dispatched state. -/
theorem c6_witness :
    dispatchOnceG.fetchTable "k" = some (0, 1) ∧
    ((getCache (revalidateSettle "k" ⟨true, 0, 1⟩ (.ok 5) true false
        (fun _ _ => false) dispatchOnceG).g "k").isValidating = some false ∧
      (getCache (revalidateSettle "k" ⟨true, 0, 1⟩ (.ok 5) true false
        (fun _ _ => false) dispatchOnceG).g "k").isLoading = some false ∧
      (revalidateSettle "k" ⟨true, 0, 1⟩ (.ok 5) true false
        (fun _ _ => false) dispatchOnceG).scheduledCleanup =
        (⟨true, 0, 1⟩ : RevCtx).shouldStart) ∧
    (cleanupState "k" 1 dispatchTwiceG).fetchTable "k" =
      (if (dispatchTwiceG.fetchTable "k").map Prod.snd = some 1 then none
       else dispatchTwiceG.fetchTable "k") :=
  ⟨by decide,
    (c6_finalize "k" ⟨true, 0, 1⟩ true false (fun _ _ => false)).1
      dispatchOnceG 5 0 (by decide),
    (c6_finalize "k" ⟨true, 0, 1⟩ true false (fun _ _ => false)).2.2.2
      1 dispatchTwiceG⟩

/-- Counterexample for C6 as stated: on the staleness discard (a fulfilled
fetch whose record was replaced by a newer dispatch) the call does NOT
finalize — `isValidating` stays `true` and `isLoading` is never written —
although the claim requires both to be set to `false` regardless of
outcome. -/
theorem c6_counterexample :
    ((dispatchTwiceG.fetchTable "k").map Prod.snd ≠ some 1) ∧
    (getCache (revalidateSettle "k" ⟨true, 0, 1⟩ (.ok 5) true false
        (fun _ _ => false) dispatchTwiceG).g "k").isValidating = some true ∧
    (getCache (revalidateSettle "k" ⟨true, 0, 1⟩ (.ok 5) true false
        (fun _ _ => false) dispatchTwiceG).g "k").isValidating ≠ some false ∧
    (getCache (revalidateSettle "k" ⟨true, 0, 1⟩ (.ok 5) true false
        (fun _ _ => false) dispatchTwiceG).g "k").isLoading ≠ some false := by
  decide

end Swr
